import Mathlib

/-!
Verification development for the label-task-queue assignment engine
(src/models.py, src/app.py).  The Python data model and the operations the
specification talks about are shallowly embedded as executable Lean
definitions; the theorems below settle the spec claims against them.
-/

namespace LabelTaskQueue

/-- Python exceptions that the embedded code can raise. -/
inductive PyErr where
  | attributeError (msg : String)
  | notImplementedError (msg : String)
deriving DecidableEq, Repr

/-- FastAPI HTTPException raised by the route handlers in src/app.py. -/
inductive HTTPError where
  | httpException (status : Nat) (detail : String)
deriving DecidableEq, Repr

/-- Python repr of an exception, as interpolated into the handler detail string. -/
def PyErr.reprStr : PyErr → String
  | .attributeError m => "AttributeError(" ++ m ++ ")"
  | .notImplementedError m => "NotImplementedError(" ++ m ++ ")"

/-- models.py Record: identity plus owning dataset id (the opaque data payload
    plays no role in the claims and is omitted). -/
structure Record where
  id : Nat
  datasetId : Nat
deriving DecidableEq, Repr

/-- models.py Dataset with its records relationship. -/
structure Dataset where
  id : Nat
  records : List Record
deriving DecidableEq, Repr

/-- models.py QueueType: the closed policy enum. -/
inductive QueueType where
  | sequential
  | random
  | consensus
  | priority
deriving DecidableEq, Repr

/-- models.py QueueStep row: num_records is the completion target (pydantic gt=0),
    rank is the column declared unique across the whole table (models.py:215). -/
structure QueueStep where
  id : Nat
  labelqueueId : Nat
  name : String
  numRecords : Nat
  type : QueueType
  numRecordsCompleted : Nat
  rank : Nat
  completed : Bool
deriving DecidableEq, Repr

/-- models.py Task row.  completedData models the completed_data JSON payload
    as an opaque string. -/
structure Task where
  id : Nat
  recordId : Nat
  datasetId : Nat
  userId : Nat
  queuestepId : Nat
  labelqueueId : Nat
  completed : Bool
  completedData : String
deriving DecidableEq, Repr

/-- models.py NextTask: the assignment descriptor returned by the queue. -/
structure NextTask where
  datasetId : Nat
  recordId : Nat
  queuestepId : Nat
deriving DecidableEq, Repr

/-- models.py LabelQueue with its relationships: registered dataset (optional),
    member user ids (via LabelQueueUserLink), its steps and its tasks.  The
    dataset_id column mirrors dataset.id under referential integrity, so it is
    represented by the dataset relationship alone. -/
structure LabelQueue where
  id : Nat
  dataset : Option Dataset
  users : List Nat
  queuesteps : List QueueStep
  tasks : List Task
deriving DecidableEq, Repr

/-- The record ids of ds.records that no task of the given task list references:
    the body of QueueStep._get_remaining_records (models.py:272-279), with the
    assigned set written as the equivalent any-scan; task.record.id equals
    task.record_id by the foreign key. -/
def remainingOf (ds : Dataset) (tasks : List Task) : List Nat :=
  (ds.records.filter (fun r => ! tasks.any (fun t => t.recordId == r.id))).map
    (fun r => r.id)

/-- QueueStep._get_remaining_records (models.py:272-279).  The method reads only
    self.labelqueue (dataset and tasks), never the step itself; accessing
    .records on an unregistered (None) dataset raises AttributeError. -/
def QueueStep.getRemainingRecords (_qs : QueueStep) (lq : LabelQueue) :
    Except PyErr (List Nat) :=
  match lq.dataset with
  | none => .error (.attributeError "NoneType object has no attribute records")
  | some ds => .ok (remainingOf ds lq.tasks)

/-- Minimum of a list of record ids: Python min on a nonempty list, none on []. -/
def listMin : List Nat → Option Nat
  | [] => none
  | x :: xs =>
    match listMin xs with
    | none => some x
    | some m => some (min x m)

/-- QueueStep._get_next_task_sequential (models.py:238-251): None when no record
    remains, otherwise the remaining record with minimum id, packaged with the
    queue dataset id and the step id. -/
def QueueStep.getNextTaskSequential (qs : QueueStep) (lq : LabelQueue) :
    Except PyErr (Option NextTask) :=
  match lq.dataset with
  | none => .error (.attributeError "NoneType object has no attribute records")
  | some ds =>
    match listMin (remainingOf ds lq.tasks) with
    | none => .ok none
    | some recordId =>
      .ok (some { datasetId := ds.id, recordId := recordId, queuestepId := qs.id })

/-- QueueStep._get_next_task_random (models.py:253-264).  random.choice is
    modelled by a caller-supplied choice function pick; the source draws a
    member of the remaining list. -/
def QueueStep.getNextTaskRandom (qs : QueueStep) (lq : LabelQueue)
    (pick : List Nat → Nat) : Except PyErr (Option NextTask) :=
  match lq.dataset with
  | none => .error (.attributeError "NoneType object has no attribute records")
  | some ds =>
    let remaining := remainingOf ds lq.tasks
    if remaining.isEmpty then .ok none
    else .ok (some { datasetId := ds.id, recordId := pick remaining, queuestepId := qs.id })

/-- QueueStep.get_next_task (models.py:221-236): dispatch on the policy enum.
    The consensus and priority arms raise NotImplementedError; the match over
    the closed enum makes the defensive case arm of the source unreachable. -/
def QueueStep.getNextTask (qs : QueueStep) (lq : LabelQueue) (_userId : Nat)
    (pick : List Nat → Nat) : Except PyErr (Option NextTask) :=
  match qs.type with
  | .sequential => qs.getNextTaskSequential lq
  | .random => qs.getNextTaskRandom lq pick
  | .consensus =>
    .error (.notImplementedError "_get_next_task_consensus has not been implemented")
  | .priority =>
    .error (.notImplementedError "_get_next_task_priority has not been implemented")

/-- Python min(list, key=rank) semantics: the first element of minimal rank. -/
def minByRank : List QueueStep → Option QueueStep
  | [] => none
  | x :: xs =>
    match minByRank xs with
    | none => some x
    | some m => if x.rank ≤ m.rank then some x else some m

/-- Python max(list, key=rank) semantics: the first element of maximal rank. -/
def maxByRank : List QueueStep → Option QueueStep
  | [] => none
  | x :: xs =>
    match maxByRank xs with
    | none => some x
    | some m => if m.rank ≤ x.rank then some x else some m

/-- LabelQueue.get_active_queuestep (models.py:322-333): the incomplete step of
    lowest rank, or None when every step is completed (or there are no steps). -/
def LabelQueue.getActiveQueuestep (lq : LabelQueue) : Option QueueStep :=
  minByRank (lq.queuesteps.filter (fun x => ! x.completed))

/-- LabelQueue.get_next_task (models.py:335-342): dispatch to the active step;
    when there is no active step the None.get_next_task attribute access raises. -/
def LabelQueue.getNextTask (lq : LabelQueue) (userId : Nat)
    (pick : List Nat → Nat) : Except PyErr (Option NextTask) :=
  match lq.getActiveQueuestep with
  | none => .error (.attributeError "NoneType object has no attribute get_next_task")
  | some qs => qs.getNextTask lq userId pick

/-- app.py:494 calls labelqueue.get_next_assignment(user_id), but LabelQueue
    (models.py) defines no such method — only get_next_task exists — so the
    attribute access raises AttributeError for every receiver and argument. -/
def LabelQueue.getNextAssignment (_lq : LabelQueue) (_userId : Nat) :
    Except PyErr NextTask :=
  .error (.attributeError "LabelQueue object has no attribute get_next_assignment")

/-- The database session state the app routes operate on: the labelqueue table
    (each row carrying its relationships) and the task id autoincrement counter. -/
structure AppState where
  labelqueues : List LabelQueue
  nextTaskId : Nat
deriving DecidableEq, Repr

/-- session.get(LabelQueue, labelqueue_id). -/
def findLabelQueue (st : AppState) (lqId : Nat) : Option LabelQueue :=
  st.labelqueues.find? (fun l => l.id == lqId)

/-- The detail string of the HTTP 404 raised when the assignment lookup in
    create_task raises (app.py:495-498), with the repr of the AttributeError
    from the get_next_assignment call interpolated. -/
def assignmentFailureDetail : String :=
  "Unable to get task assignment. Reason: " ++
    (PyErr.attributeError "LabelQueue object has no attribute get_next_assignment").reprStr

/-- app.py create_task (app.py:479-513): look up the queue, check membership,
    obtain the next assignment, then build and commit the Task row.  An error
    result models a raised HTTPException, under which the session commit never
    runs and no Task row is created. -/
def createTask (st : AppState) (labelqueueId userId : Nat) :
    Except HTTPError (AppState × Task) :=
  match findLabelQueue st labelqueueId with
  | none => .error (.httpException 404 "LabelQueue not found")
  | some lq =>
    if userId ∈ lq.users then
      match lq.getNextAssignment userId with
      | .error e =>
        .error (.httpException 404 ("Unable to get task assignment. Reason: " ++ e.reprStr))
      | .ok nt =>
        let task : Task :=
          { id := st.nextTaskId, recordId := nt.recordId, datasetId := nt.datasetId,
            userId := userId, queuestepId := nt.queuestepId,
            labelqueueId := labelqueueId, completed := false, completedData := "" }
        .ok ({ st with
                labelqueues := st.labelqueues.map (fun l =>
                  if l.id == labelqueueId then { l with tasks := l.tasks ++ [task] } else l),
                nextTaskId := st.nextTaskId + 1 }, task)
    else .error (.httpException 404 "User does not belong to labelqueue")

/-- The request body of create_queuestep (models.py QueueStepCreate): the raw
    policy tag arrives as a string and is validated by pydantic against the
    QueueType enum before the route body runs; policyArgs is the opaque
    policy_args JSON object. -/
structure QueueStepCreate where
  name : String
  description : Option String
  numRecords : Nat
  typeTag : String
  policyArgs : String
deriving DecidableEq, Repr

/-- Errors of the create_queuestep route: a pydantic 422 validation failure of
    the request body, or the 404 for a missing labelqueue. -/
inductive ConfigError where
  | labelqueueNotFound
  | validationError (msg : String)
deriving DecidableEq, Repr

/-- pydantic validation of the type field against the closed QueueType enum
    (models.py:196-200): any other tag is rejected at configuration time. -/
def parseQueueType (s : String) : Option QueueType :=
  if s == "sequential" then some .sequential
  else if s == "random" then some .random
  else if s == "consensus" then some .consensus
  else if s == "priority" then some .priority
  else none

/-- app.py create_queuestep (app.py:446-471): after body validation (enum tag,
    num_records gt=0) and the labelqueue lookup, the new step's rank is 1 plus
    the maximum rank among that queue's existing steps (1 when it has none), and
    the step is committed with num_records_completed = 0 and completed = false. -/
def createQueuestep (st : AppState) (labelqueueId : Nat) (qsc : QueueStepCreate)
    (newId : Nat) : Except ConfigError (AppState × QueueStep) :=
  match parseQueueType qsc.typeTag with
  | none => .error (.validationError "type: value is not a valid enumeration member")
  | some ty =>
    if qsc.numRecords = 0 then
      .error (.validationError "num_records: ensure this value is greater than 0")
    else
      match findLabelQueue st labelqueueId with
      | none => .error .labelqueueNotFound
      | some lq =>
        let rank : Nat :=
          match maxByRank lq.queuesteps with
          | none => 1
          | some m => 1 + m.rank
        let qs : QueueStep :=
          { id := newId, labelqueueId := labelqueueId, name := qsc.name,
            numRecords := qsc.numRecords, type := ty, numRecordsCompleted := 0,
            rank := rank, completed := false }
        .ok ({ st with
                labelqueues := st.labelqueues.map (fun l =>
                  if l.id == labelqueueId then
                    { l with queuesteps := l.queuesteps ++ [qs] }
                  else l) }, qs)

/-- All steps across all queues: the queuestep table, over which the rank
    column (models.py:215) is declared unique. -/
def allSteps (st : AppState) : List QueueStep :=
  (st.labelqueues.map (fun l => l.queuesteps)).flatten

/-- Decides whether the rank column values are pairwise distinct across the
    whole queuestep table, as the unique=True constraint of models.py:215
    demands. -/
def ranksPairwiseDistinct : List QueueStep → Bool
  | [] => true
  | x :: xs => xs.all (fun y => x.rank != y.rank) && ranksPairwiseDistinct xs

/-- Errors of the ledger completion operation of spec section 4.3. -/
inductive LedgerError where
  | taskNotFound
  | alreadyCompleted
deriving DecidableEq, Repr

/-- The task table: all tasks across all queues. -/
def allTasks (st : AppState) : List Task :=
  (st.labelqueues.map (fun l => l.tasks)).flatten

/-- The per-task completion update: the targeted task gets completed = true and
    the stored payload; every other task is untouched. -/
def updTask (taskId : Nat) (payload : String) (u : Task) : Task :=
  if u.id == taskId then { u with completed := true, completedData := payload } else u

/-- Modelled from the spec: src/ contains no completion operation for tasks (no
    route in app.py and no method on Task in models.py), so complete(task_id,
    result_payload) is modelled from spec section 4.3: it sets completed=true
    and stores the payload, fails TaskNotFound if the task id is absent and
    AlreadyCompleted if called twice; an error result leaves the state
    untouched. -/
def completeTask (st : AppState) (taskId : Nat) (payload : String) :
    Except LedgerError AppState :=
  match (allTasks st).find? (fun t => t.id == taskId) with
  | none => .error .taskNotFound
  | some t =>
    if t.completed then .error .alreadyCompleted
    else
      .ok { st with
        labelqueues := st.labelqueues.map (fun l =>
          { l with tasks := l.tasks.map (updTask taskId payload) }) }

/-- Modelled from the spec: no code path under src/ ever increments
    num_records_completed (spec section 9, open question 1); the recommended
    counting basis for a step is the number of completed tasks attributed to
    the step (spec section 4.2). -/
def QueueStep.completedCount (qs : QueueStep) (lq : LabelQueue) : Nat :=
  (lq.tasks.filter (fun t => t.queuestepId == qs.id && t.completed)).length

/-- Modelled from the spec: the completion criterion of spec section 4.2 —
    completed_count at or above target_count, or an empty eligible set for the
    step (the eligible set is queue-scoped, section 4.3). -/
def stepCompletionHolds (qs : QueueStep) (lq : LabelQueue) : Bool :=
  decide (qs.numRecords ≤ qs.completedCount lq) ||
    (match lq.dataset with
     | some ds => (remainingOf ds lq.tasks).isEmpty
     | none => false)

/-- Modelled from the spec: lazy completion re-evaluation (spec sections 4.2
    and 9): every step whose criterion holds is marked completed = true; a step
    already completed stays completed. -/
def evalCompletion (lq : LabelQueue) : LabelQueue :=
  { lq with
    queuesteps := lq.queuesteps.map (fun qs =>
      if qs.completed || stepCompletionHolds qs lq then { qs with completed := true }
      else qs) }

/-- The record a non-consensus step policy of models.py can select for a step
    in a given queue state, stated relationally so that the uniform draw of the
    random policy is covered: the sequential arm is the computed descriptor of
    _get_next_task_sequential, the random arm any member of the remaining list
    handed to random.choice.  The consensus and priority arms raise before
    selecting, so they select nothing. -/
inductive PolicySelects : QueueStep → LabelQueue → Nat → Prop where
  | sequential : ∀ (qs : QueueStep) (lq : LabelQueue) (nt : NextTask),
      qs.type = QueueType.sequential →
      qs.getNextTaskSequential lq = .ok (some nt) →
      PolicySelects qs lq nt.recordId
  | random : ∀ (qs : QueueStep) (lq : LabelQueue) (ds : Dataset) (r : Nat),
      qs.type = QueueType.random →
      lq.dataset = some ds →
      r ∈ remainingOf ds lq.tasks →
      PolicySelects qs lq r

/-- One committed assignment of the queue: the active step (models.py:322-333)
    selects a record under its policy and the task row of app.py:500-506 is
    appended to the queue's tasks.  The task and user ids are arbitrary; only
    the referenced record matters for uniqueness. -/
inductive CommitStep : LabelQueue → LabelQueue → Prop where
  | mk : ∀ (lq : LabelQueue) (qs : QueueStep) (r userId taskId dsId : Nat),
      lq.getActiveQueuestep = some qs →
      PolicySelects qs lq r →
      CommitStep lq
        { lq with tasks := lq.tasks ++
            [{ id := taskId, recordId := r, datasetId := dsId, userId := userId,
               queuestepId := qs.id, labelqueueId := lq.id, completed := false,
               completedData := "" }] }

/-! Helper lemmas about the list scans used by the embedded functions. -/

theorem listMin_mem : ∀ (l : List Nat) (m : Nat), listMin l = some m → m ∈ l := by
  intro l
  induction l with
  | nil => intro m h; simp [listMin] at h
  | cons x xs ih =>
    intro m h
    simp only [listMin] at h
    cases hxs : listMin xs with
    | none => rw [hxs] at h; simp at h; simp [h]
    | some k =>
      rw [hxs] at h
      simp at h
      by_cases hxk : x ≤ k
      · rw [min_eq_left hxk] at h
        simp [h]
      · rw [min_eq_right (Nat.le_of_not_le hxk)] at h
        exact List.mem_cons_of_mem x (h ▸ ih k hxs)

theorem listMin_le : ∀ (l : List Nat) (m : Nat), listMin l = some m →
    ∀ x ∈ l, m ≤ x := by
  intro l
  induction l with
  | nil => intro m h; simp [listMin] at h
  | cons a xs ih =>
    intro m h x hx
    simp only [listMin] at h
    cases hxs : listMin xs with
    | none =>
      rw [hxs] at h; simp at h
      have : xs = [] := by
        cases xs with
        | nil => rfl
        | cons b bs => simp [listMin] at hxs; cases hbs : listMin bs <;> simp [hbs] at hxs
      subst this
      simp at hx
      simp [h, hx]
    | some k =>
      rw [hxs] at h; simp at h
      rcases List.mem_cons.mp hx with rfl | hx2
      · rw [← h]; exact Nat.min_le_left x k
      · calc m ≤ k := by rw [← h]; exact Nat.min_le_right a k
             _ ≤ x := ih k hxs x hx2

theorem listMin_eq_none : ∀ (l : List Nat), listMin l = none ↔ l = [] := by
  intro l
  cases l with
  | nil => simp [listMin]
  | cons x xs =>
    simp only [listMin]
    cases hxs : listMin xs <;> simp

/-- Membership in the remaining-record list: exactly the dataset record ids not
    referenced by any task of the queue. -/
theorem mem_remainingOf (ds : Dataset) (tasks : List Task) (r : Nat) :
    r ∈ remainingOf ds tasks ↔
      ((∃ rec, rec ∈ ds.records ∧ rec.id = r) ∧ ∀ t ∈ tasks, t.recordId ≠ r) := by
  simp only [remainingOf, List.mem_map, List.mem_filter, Bool.not_eq_eq_eq_not,
    Bool.not_true, List.any_eq_false, beq_iff_eq, ne_eq]
  constructor
  · rintro ⟨rec, ⟨hmem, hassigned⟩, rfl⟩
    exact ⟨⟨rec, hmem, rfl⟩, fun t ht => hassigned t ht⟩
  · rintro ⟨⟨rec, hmem, rfl⟩, hnot⟩
    exact ⟨rec, ⟨hmem, fun t ht => hnot t ht⟩, rfl⟩

theorem minByRank_eq_none : ∀ (l : List QueueStep), minByRank l = none ↔ l = [] := by
  intro l
  cases l with
  | nil => simp [minByRank]
  | cons x xs =>
    simp only [minByRank]
    cases hxs : minByRank xs with
    | none => simp
    | some m => simp only []; split <;> simp

theorem minByRank_spec : ∀ (l : List QueueStep) (s : QueueStep),
    minByRank l = some s → s ∈ l ∧ ∀ t ∈ l, s.rank ≤ t.rank := by
  intro l
  induction l with
  | nil => intro s h; simp [minByRank] at h
  | cons x xs ih =>
    intro s h
    simp only [minByRank] at h
    cases hxs : minByRank xs with
    | none =>
      rw [hxs] at h; simp at h
      have hnil : xs = [] := (minByRank_eq_none xs).mp hxs
      subst hnil
      subst h
      exact ⟨List.mem_singleton_self _, by intro t ht; simp at ht; simp [ht]⟩
    | some m =>
      rw [hxs] at h
      have h2 : (if x.rank ≤ m.rank then some x else some m) = some s := h
      obtain ⟨hmmem, hmle⟩ := ih m hxs
      by_cases hle : x.rank ≤ m.rank
      · rw [if_pos hle] at h2
        simp at h2
        subst h2
        refine ⟨List.mem_cons_self x xs, ?_⟩
        intro t ht
        rcases List.mem_cons.mp ht with rfl | ht2
        · exact Nat.le_refl _
        · exact Nat.le_trans hle (hmle t ht2)
      · rw [if_neg hle] at h2
        simp at h2
        subst h2
        refine ⟨List.mem_cons_of_mem x hmmem, ?_⟩
        intro t ht
        rcases List.mem_cons.mp ht with rfl | ht2
        · exact Nat.le_of_lt (Nat.lt_of_not_le hle)
        · exact hmle t ht2

/-- The active-step contract: none exactly when every step is completed, and a
    returned step is an incomplete member of minimal rank among the incomplete. -/
theorem getActiveQueuestep_none (lq : LabelQueue) :
    lq.getActiveQueuestep = none ↔ ∀ s ∈ lq.queuesteps, s.completed = true := by
  simp only [LabelQueue.getActiveQueuestep, minByRank_eq_none,
    List.filter_eq_nil_iff, Bool.not_eq_eq_eq_not, Bool.not_true]
  constructor
  · intro h s hs
    have := h s hs
    simpa using this
  · intro h s hs
    simpa using h s hs

theorem getActiveQueuestep_some (lq : LabelQueue) (s : QueueStep)
    (h : lq.getActiveQueuestep = some s) :
    s ∈ lq.queuesteps ∧ s.completed = false ∧
      ∀ t ∈ lq.queuesteps, t.completed = false → s.rank ≤ t.rank := by
  obtain ⟨hmem, hle⟩ := minByRank_spec _ s h
  have hmem2 := List.mem_filter.mp hmem
  refine ⟨hmem2.1, by simpa using hmem2.2, ?_⟩
  intro t ht htc
  exact hle t (List.mem_filter.mpr ⟨ht, by simp [htc]⟩)

/-- A record selected by a non-consensus policy is always a member of the
    remaining (eligible) list of the queue. -/
theorem policySelects_mem (qs : QueueStep) (lq : LabelQueue) (r : Nat)
    (h : PolicySelects qs lq r) :
    ∃ ds, lq.dataset = some ds ∧ r ∈ remainingOf ds lq.tasks := by
  cases h with
  | sequential nt hty hsel =>
    cases hds : lq.dataset with
    | none => simp [QueueStep.getNextTaskSequential, hds] at hsel
    | some ds =>
      simp only [QueueStep.getNextTaskSequential, hds] at hsel
      cases hmin : listMin (remainingOf ds lq.tasks) with
      | none => rw [hmin] at hsel; simp at hsel
      | some m =>
        rw [hmin] at hsel
        simp at hsel
        refine ⟨ds, rfl, ?_⟩
        rw [← hsel]
        exact listMin_mem _ m hmin
  | random ds r hty hds hr => exact ⟨ds, hds, hr⟩

/-- One committed assignment preserves distinctness of the referenced record
    ids, because the policies only select among records no task of the queue
    references yet. -/
theorem commitStep_nodup (lq lq' : LabelQueue) (h : CommitStep lq lq')
    (hnd : (lq.tasks.map (fun t => t.recordId)).Nodup) :
    (lq'.tasks.map (fun t => t.recordId)).Nodup := by
  cases h with
  | mk qs r userId taskId dsId hactive hsel =>
    obtain ⟨ds, hds, hr⟩ := policySelects_mem qs lq r hsel
    have hnotin : r ∉ lq.tasks.map (fun t => t.recordId) := by
      intro hmem
      obtain ⟨t, ht, hteq⟩ := List.mem_map.mp hmem
      exact ((mem_remainingOf ds lq.tasks r).mp hr).2 t ht hteq
    simp only [List.map_append, List.map_cons, List.map_nil]
    rw [List.nodup_append]
    refine ⟨hnd, List.nodup_singleton r, ?_⟩
    intro a ha hb
    rw [List.mem_singleton.mp hb] at ha
    exact hnotin ha

/-- Distinctness of referenced record ids is invariant under any sequence of
    committed assignments. -/
theorem reaches_nodup (lq lq' : LabelQueue)
    (h : Relation.ReflTransGen CommitStep lq lq')
    (hnd : (lq.tasks.map (fun t => t.recordId)).Nodup) :
    (lq'.tasks.map (fun t => t.recordId)).Nodup := by
  induction h with
  | refl => exact hnd
  | tail _ hstep ih => exact commitStep_nodup _ _ hstep ih

/-- The completion update never changes a task id. -/
theorem updTask_id (taskId : Nat) (payload : String) (u : Task) :
    (updTask taskId payload u).id = u.id := by
  unfold updTask
  split <;> rfl

/-- Finding by task id commutes with the completion update, because the update
    never changes a task id. -/
theorem find?_map_update (taskId : Nat) (payload : String) (l : List Task) :
    (l.map (updTask taskId payload)).find? (fun u => u.id == taskId)
      = (l.find? (fun u => u.id == taskId)).map (updTask taskId payload) := by
  induction l with
  | nil => rfl
  | cons a as ih =>
    simp only [List.map_cons, List.find?, updTask_id]
    cases hc : (a.id == taskId) with
    | true => rfl
    | false => exact ih

/-- The task table of the updated session state is the pointwise update of the
    task table of the old state. -/
theorem allTasks_update (st : AppState) (taskId : Nat) (payload : String) :
    allTasks { st with
        labelqueues := st.labelqueues.map (fun l =>
          { l with tasks := l.tasks.map (updTask taskId payload) }) }
      = (allTasks st).map (updTask taskId payload) := by
  simp only [allTasks, List.map_map, List.map_flatten, Function.comp]
  rfl

/-- Completion re-evaluation marks a step whose completed-count basis has
    reached its target. -/
theorem evalCompletion_marks (lq : LabelQueue) (qs : QueueStep)
    (hmem : qs ∈ lq.queuesteps) (hcrit : qs.numRecords ≤ qs.completedCount lq) :
    { qs with completed := true } ∈ (evalCompletion lq).queuesteps := by
  have hb : (qs.completed || stepCompletionHolds qs lq) = true := by
    simp [stepCompletionHolds, hcrit]
  have hfq : (fun s =>
      if s.completed || stepCompletionHolds s lq then { s with completed := true } else s) qs
      = { qs with completed := true } := by
    simp only [hb, if_true]
  have hin := List.mem_map_of_mem
    (fun s => if s.completed || stepCompletionHolds s lq then { s with completed := true }
      else s) hmem
  rw [hfq] at hin
  exact hin

/-- Completion re-evaluation never unmarks a completed step: a step with
    completed = true survives unchanged. -/
theorem evalCompletion_keeps_completed (lq : LabelQueue) (s : QueueStep)
    (hmem : s ∈ lq.queuesteps) (hc : s.completed = true) :
    s ∈ (evalCompletion lq).queuesteps := by
  have heq : { s with completed := true } = s := by
    cases s with
    | mk i l n nr ty nc rk cp => simp at hc; rw [hc]
  have hfq : (fun t =>
      if t.completed || stepCompletionHolds t lq then { t with completed := true } else t) s
      = s := by
    simp only [hc, Bool.true_or, if_true, heq]
  have hin := List.mem_map_of_mem
    (fun t => if t.completed || stepCompletionHolds t lq then { t with completed := true }
      else t) hmem
  rw [hfq] at hin
  exact hin

/-- The active-step contract as a single predicate: either there is no active
    step and every step is completed, or the active step is an incomplete step
    of minimal rank among the incomplete ones. -/
def activeStepSpec (lq : LabelQueue) : Prop :=
  (lq.getActiveQueuestep = none ∧ ∀ s ∈ lq.queuesteps, s.completed = true) ∨
  (∃ s, lq.getActiveQueuestep = some s ∧ s ∈ lq.queuesteps ∧ s.completed = false ∧
    ∀ t ∈ lq.queuesteps, t.completed = false → s.rank ≤ t.rank)

theorem activeStepSpec_holds (lq : LabelQueue) : activeStepSpec lq := by
  cases hact : lq.getActiveQueuestep with
  | none => exact Or.inl ⟨hact, (getActiveQueuestep_none lq).mp hact⟩
  | some s =>
    obtain ⟨h1, h2, h3⟩ := getActiveQueuestep_some lq s hact
    exact Or.inr ⟨s, hact, h1, h2, h3⟩

/-! Concrete states used by the code-bug evaluation, the counterexamples and
the witnesses. -/

def ds1 : Dataset :=
  { id := 1, records := [{ id := 1, datasetId := 1 }, { id := 2, datasetId := 1 },
      { id := 3, datasetId := 1 }] }

def seqStep : QueueStep :=
  { id := 1, labelqueueId := 1, name := "label", numRecords := 3,
    type := .sequential, numRecordsCompleted := 0, rank := 1, completed := false }

/-- A fully valid queue: registered non-empty dataset, one member worker, one
    incomplete sequential step, empty ledger. -/
def lqReady : LabelQueue :=
  { id := 1, dataset := some ds1, users := [1], queuesteps := [seqStep], tasks := [] }

def stReady : AppState := { labelqueues := [lqReady], nextTaskId := 1 }

/-- C1: for a queue with a registered non-empty dataset, a member worker and an
    active sequential step with a non-empty eligible set, the claim says
    create_task commits exactly one Task and returns the assignment descriptor.
    The code instead calls labelqueue.get_next_assignment (app.py:494), a method
    LabelQueue does not define, so the AttributeError is caught and create_task
    answers HTTP 404 without creating any Task — even though the models.py
    selector get_next_task would have produced the descriptor record 1, step 1,
    dataset 1 on the same state. -/
theorem C1_createTask_never_commits :
    (1 ∈ lqReady.users) ∧
    lqReady.getActiveQueuestep = some seqStep ∧
    seqStep.getNextTaskSequential lqReady =
      .ok (some { datasetId := 1, recordId := 1, queuestepId := 1 }) ∧
    LabelQueue.getNextTask lqReady 1 (fun _ => 0) =
      .ok (some { datasetId := 1, recordId := 1, queuestepId := 1 }) ∧
    createTask stReady 1 1 = .error (.httpException 404 assignmentFailureDetail) := by
  exact ⟨by decide, by decide, rfl, rfl, rfl⟩

def stepRank1Done : QueueStep :=
  { id := 10, labelqueueId := 2, name := "a", numRecords := 1,
    type := .sequential, numRecordsCompleted := 0, rank := 1, completed := true }

def stepRank2 : QueueStep :=
  { id := 11, labelqueueId := 2, name := "b", numRecords := 1,
    type := .sequential, numRecordsCompleted := 0, rank := 2, completed := false }

def stepRank3 : QueueStep :=
  { id := 12, labelqueueId := 2, name := "c", numRecords := 1,
    type := .sequential, numRecordsCompleted := 0, rank := 3, completed := false }

/-- A queue with a completed rank-1 step and incomplete rank-2 and rank-3
    steps, for the C2 witness: the active step must be the rank-2 step. -/
def lqThreeSteps : LabelQueue :=
  { id := 2, dataset := some ds1, users := [1],
    queuesteps := [stepRank1Done, stepRank2, stepRank3], tasks := [] }

/-- C2: get_active_queuestep returns none exactly when every step of the queue
    is completed (in particular when there are no steps), and any returned step
    is an incomplete step of the queue whose rank is minimal among the
    incomplete steps. -/
theorem C2_activeQueuestep_spec (lq : LabelQueue) :
    (lq.getActiveQueuestep = none ↔ ∀ s ∈ lq.queuesteps, s.completed = true) ∧
    ∀ s, lq.getActiveQueuestep = some s →
      s ∈ lq.queuesteps ∧ s.completed = false ∧
        ∀ t ∈ lq.queuesteps, t.completed = false → s.rank ≤ t.rank :=
  ⟨getActiveQueuestep_none lq, fun s h => getActiveQueuestep_some lq s h⟩

/-- Witness for C2 at a concrete three-step queue: the rank-2 incomplete step
    is active, and its rank is at most that of the other incomplete step. -/
theorem C2_activeQueuestep_spec_witness :
    lqThreeSteps.getActiveQueuestep = some stepRank2 ∧
    stepRank2 ∈ lqThreeSteps.queuesteps ∧ stepRank2.completed = false ∧
    stepRank2.rank ≤ stepRank3.rank := by
  have hact : lqThreeSteps.getActiveQueuestep = some stepRank2 := by decide
  have h := (C2_activeQueuestep_spec lqThreeSteps).2 stepRank2 hact
  exact ⟨hact, h.1, h.2.1, h.2.2 stepRank3 (by decide) (by decide)⟩

/-- The task row committed for record 1 of queue 1. -/
def task1 : Task :=
  { id := 1, recordId := 1, datasetId := 1, userId := 1, queuestepId := 1,
    labelqueueId := 1, completed := false, completedData := "" }

/-- A queue with one task already issued for record 1, so records 2 and 3
    remain eligible. -/
def lqOneTask : LabelQueue :=
  { id := 1, dataset := some ds1, users := [1], queuesteps := [seqStep],
    tasks := [task1] }

/-- C3: the sequential policy returns ok-none (Exhausted) exactly on an empty
    eligible set, otherwise the descriptor of the minimal eligible record id;
    and its result is a function of the ledger state alone (dataset and task
    list), hence deterministic and replayable. -/
theorem C3_sequential_policy (qs : QueueStep) (lq : LabelQueue) (ds : Dataset)
    (hds : lq.dataset = some ds) :
    (remainingOf ds lq.tasks = [] → qs.getNextTaskSequential lq = .ok none) ∧
    (remainingOf ds lq.tasks ≠ [] →
      ∃ m, listMin (remainingOf ds lq.tasks) = some m ∧
        qs.getNextTaskSequential lq =
          .ok (some { datasetId := ds.id, recordId := m, queuestepId := qs.id }) ∧
        m ∈ remainingOf ds lq.tasks ∧ ∀ x ∈ remainingOf ds lq.tasks, m ≤ x) ∧
    (∀ lq2 : LabelQueue, lq2.dataset = some ds → lq2.tasks = lq.tasks →
      qs.getNextTaskSequential lq2 = qs.getNextTaskSequential lq) := by
  refine ⟨?_, ?_, ?_⟩
  · intro hemp
    simp only [QueueStep.getNextTaskSequential, hds, hemp]
    rfl
  · intro hne
    cases hmin : listMin (remainingOf ds lq.tasks) with
    | none => exact absurd ((listMin_eq_none _).mp hmin) hne
    | some m =>
      refine ⟨m, rfl, ?_, listMin_mem _ m hmin, listMin_le _ m hmin⟩
      simp only [QueueStep.getNextTaskSequential, hds, hmin]
  · intro lq2 hds2 htasks
    simp only [QueueStep.getNextTaskSequential, hds, hds2, htasks]

/-- Witness for C3 at a concrete queue with one issued task: records 2 and 3
    remain, and the sequential policy returns the descriptor for record 2. -/
theorem C3_sequential_policy_witness :
    seqStep.getNextTaskSequential lqOneTask =
      .ok (some { datasetId := 1, recordId := 2, queuestepId := 1 }) ∧
    2 ∈ remainingOf ds1 lqOneTask.tasks := by
  obtain ⟨m, hm, heq, hmem, hle⟩ :=
    (C3_sequential_policy seqStep lqOneTask ds1 rfl).2.1 (by decide)
  have hm2 : some m = some 2 := by
    rw [← hm]
    decide
  injection hm2 with hm3
  subst hm3
  exact ⟨heq, hmem⟩

/-- C4: the eligible set of a step is computed alone from the queue: it is the
    same list for every step of the queue, and a record id belongs to it
    exactly when it is a dataset record not referenced by any task of the whole
    queue — so a record assigned under any stage is excluded for every stage
    afterwards. -/
theorem C4_eligibility_queue_scoped (qs qs2 : QueueStep) (lq : LabelQueue)
    (ds : Dataset) (hds : lq.dataset = some ds) :
    qs.getRemainingRecords lq = qs2.getRemainingRecords lq ∧
    qs.getRemainingRecords lq = .ok (remainingOf ds lq.tasks) ∧
    ∀ r, r ∈ remainingOf ds lq.tasks ↔
      ((∃ rec, rec ∈ ds.records ∧ rec.id = r) ∧ ∀ t ∈ lq.tasks, t.recordId ≠ r) := by
  refine ⟨rfl, ?_, fun r => mem_remainingOf ds lq.tasks r⟩
  simp only [QueueStep.getRemainingRecords, hds]

/-- A second, distinct step of queue 1 used to compare per-step eligible sets. -/
def otherStep : QueueStep :=
  { id := 99, labelqueueId := 1, name := "other", numRecords := 1,
    type := .random, numRecordsCompleted := 0, rank := 2, completed := false }

/-- Witness for C4 at the concrete one-task queue: both steps see the same
    eligible set and record 2 (unassigned) is in it. -/
theorem C4_eligibility_queue_scoped_witness :
    seqStep.getRemainingRecords lqOneTask = otherStep.getRemainingRecords lqOneTask ∧
    seqStep.getRemainingRecords lqOneTask = .ok (remainingOf ds1 lqOneTask.tasks) ∧
    2 ∈ remainingOf ds1 lqOneTask.tasks := by
  obtain ⟨h1, h2, h3⟩ := C4_eligibility_queue_scoped seqStep otherStep lqOneTask ds1 rfl
  exact ⟨h1, h2, (h3 2).mpr ⟨⟨{ id := 2, datasetId := 1 }, by decide, rfl⟩, by decide⟩⟩

/-- C5: when a step's completed-count basis reaches its target, completion
    re-evaluation marks the step completed; afterwards the active step — the
    one the models.py dispatcher routes the next assignment to — is either some
    incomplete step of minimal rank among the incomplete ones (the following
    step) or none when every step is completed (the drained queue); and a step
    whose completed flag is true is never reverted by re-evaluation. -/
theorem C5_step_completion (lq : LabelQueue) (qs : QueueStep)
    (hmem : qs ∈ lq.queuesteps) (hcrit : qs.numRecords ≤ qs.completedCount lq) :
    { qs with completed := true } ∈ (evalCompletion lq).queuesteps ∧
    activeStepSpec (evalCompletion lq) ∧
    ∀ (lq2 : LabelQueue) (s : QueueStep), s ∈ lq2.queuesteps → s.completed = true →
      s ∈ (evalCompletion lq2).queuesteps :=
  ⟨evalCompletion_marks lq qs hmem hcrit, activeStepSpec_holds _,
    fun lq2 s h1 h2 => evalCompletion_keeps_completed lq2 s h1 h2⟩

def stepC5a : QueueStep :=
  { id := 21, labelqueueId := 3, name := "first", numRecords := 1,
    type := .sequential, numRecordsCompleted := 0, rank := 1, completed := false }

def stepC5b : QueueStep :=
  { id := 22, labelqueueId := 3, name := "second", numRecords := 2,
    type := .sequential, numRecordsCompleted := 0, rank := 2, completed := false }

/-- The completed task attributed to step 21 of queue 3. -/
def taskC5 : Task :=
  { id := 31, recordId := 1, datasetId := 1, userId := 1, queuestepId := 21,
    labelqueueId := 3, completed := true, completedData := "done" }

/-- A queue whose first step has met its target of one completed task. -/
def lqC5 : LabelQueue :=
  { id := 3, dataset := some ds1, users := [1],
    queuesteps := [stepC5a, stepC5b], tasks := [taskC5] }

/-- Witness for C5: after re-evaluation the first step is marked completed and
    the rank-2 step becomes the active one. -/
theorem C5_step_completion_witness :
    { stepC5a with completed := true } ∈ (evalCompletion lqC5).queuesteps ∧
    (evalCompletion lqC5).getActiveQueuestep = some stepC5b := by
  obtain ⟨h1, h2, h3⟩ := C5_step_completion lqC5 stepC5a (by decide) (by decide)
  exact ⟨h1, by decide⟩

/-- The drained queue: its only step is completed. -/
def lqDrained : LabelQueue :=
  { id := 1, dataset := some ds1, users := [1],
    queuesteps := [{ seqStep with completed := true }], tasks := [] }

/-- A queue with zero configured steps. -/
def lqZeroSteps : LabelQueue :=
  { id := 1, dataset := some ds1, users := [1], queuesteps := [], tasks := [] }

def stDrained : AppState := { labelqueues := [lqDrained], nextTaskId := 1 }

def stZeroSteps : AppState := { labelqueues := [lqZeroSteps], nextTaskId := 1 }

/-- C6 counterexample: create_task answers the drained queue (steps all
    completed, no active step) and the zero-step queue with the same single
    generic 404 error value — and answers a queue with available work with that
    very same error — so it has no distinct typed QueueDrained and
    NoStepsConfigured results as the claim states. -/
theorem C6_error_collapse :
    lqDrained.queuesteps = [{ seqStep with completed := true }] ∧
    lqDrained.getActiveQueuestep = none ∧
    lqZeroSteps.queuesteps = [] ∧
    createTask stDrained 1 1 = .error (.httpException 404 assignmentFailureDetail) ∧
    createTask stZeroSteps 1 1 = .error (.httpException 404 assignmentFailureDetail) ∧
    createTask stReady 1 1 = createTask stDrained 1 1 :=
  ⟨rfl, by decide, rfl, rfl, rfl, rfl⟩

/-- C6 (amended): on a looked-up queue, create_task raises a distinct 404 for a
    non-member worker, and for a member worker it raises the one generic 404
    assignment-failure error — the same value whether the queue is drained, has
    zero steps, or has eligible work — and in every such case the error result
    means the handler raised before session.add/commit, so no Task is created. -/
theorem C6_failure_behavior (st : AppState) (i u : Nat) (lq : LabelQueue)
    (hfind : findLabelQueue st i = some lq) :
    (u ∉ lq.users →
      createTask st i u = .error (.httpException 404 "User does not belong to labelqueue")) ∧
    (u ∈ lq.users →
      createTask st i u = .error (.httpException 404 assignmentFailureDetail)) := by
  constructor
  · intro hn
    simp only [createTask, hfind]
    rw [if_neg hn]
  · intro hy
    simp only [createTask, hfind]
    rw [if_pos hy]
    rfl

/-- Witness for C6 at concrete states: worker 2 is not a member of the ready
    queue, worker 1 is. -/
theorem C6_failure_behavior_witness :
    createTask stReady 1 2 = .error (.httpException 404 "User does not belong to labelqueue") ∧
    createTask stReady 1 1 = .error (.httpException 404 assignmentFailureDetail) :=
  ⟨(C6_failure_behavior stReady 1 2 lqReady rfl).1 (by decide),
   (C6_failure_behavior stReady 1 1 lqReady rfl).2 (by decide)⟩

/-- C7: across any sequence of committed assignments of the queue under the
    non-consensus policies, no record id ever appears in two committed tasks —
    every selection is drawn from the remaining list, which excludes every
    already-referenced record — and once the remaining list of the queue is
    empty the sequential selector answers ok-none (Exhausted) instead of
    re-assigning, so of two back-to-back requests against a step with one
    remaining record only the first commits it. -/
theorem C7_no_duplicate_records (lq lq' : LabelQueue)
    (hreach : Relation.ReflTransGen CommitStep lq lq')
    (hnd : (lq.tasks.map (fun t => t.recordId)).Nodup) :
    (lq'.tasks.map (fun t => t.recordId)).Nodup ∧
    ∀ (qs : QueueStep) (ds : Dataset), lq'.dataset = some ds →
      remainingOf ds lq'.tasks = [] → qs.getNextTaskSequential lq' = .ok none := by
  refine ⟨reaches_nodup lq lq' hreach hnd, ?_⟩
  intro qs ds hds hemp
  simp only [QueueStep.getNextTaskSequential, hds, hemp]
  rfl

/-- A dataset holding exactly one record, for the C7 witness. -/
def dsSingle : Dataset := { id := 9, records := [{ id := 1, datasetId := 9 }] }

def stepC7 : QueueStep :=
  { id := 40, labelqueueId := 7, name := "only", numRecords := 1,
    type := .sequential, numRecordsCompleted := 0, rank := 1, completed := false }

/-- A queue over the one-record dataset with an empty ledger. -/
def lqC7zero : LabelQueue :=
  { id := 7, dataset := some dsSingle, users := [1], queuesteps := [stepC7],
    tasks := [] }

/-- The task committed for the single record. -/
def taskC7 : Task :=
  { id := 70, recordId := 1, datasetId := 9, userId := 1, queuestepId := 40,
    labelqueueId := 7, completed := false, completedData := "" }

/-- The queue after the single record has been assigned. -/
def lqC7after : LabelQueue :=
  { id := 7, dataset := some dsSingle, users := [1], queuesteps := [stepC7],
    tasks := [taskC7] }

/-- Witness for C7: one committed assignment of the last record keeps the record
    ids distinct, and the next sequential request on the same step answers
    ok-none instead of assigning the record again. -/
theorem C7_no_duplicate_records_witness :
    (lqC7after.tasks.map (fun t => t.recordId)).Nodup ∧
    stepC7.getNextTaskSequential lqC7after = .ok none := by
  have hstep : CommitStep lqC7zero lqC7after :=
    CommitStep.mk lqC7zero stepC7 1 1 70 9 rfl
      (PolicySelects.sequential stepC7 lqC7zero
        { datasetId := 9, recordId := 1, queuestepId := 40 } rfl rfl)
  obtain ⟨h1, h2⟩ := C7_no_duplicate_records lqC7zero lqC7after
    (Relation.ReflTransGen.single hstep) (by decide)
  exact ⟨h1, h2 stepC7 dsSingle rfl (by decide)⟩

/-- The consensus step as create_queuestep would commit it into queue 1. -/
def consensusStep : QueueStep :=
  { id := 7, labelqueueId := 1, name := "agree", numRecords := 3,
    type := .consensus, numRecordsCompleted := 0, rank := 1, completed := false }

/-- The create_queuestep request body carrying the consensus tag. -/
def qscConsensus : QueueStepCreate :=
  { name := "agree", description := none, numRecords := 3,
    typeTag := "consensus", policyArgs := "" }

/-- A create_queuestep request body with an unrecognized policy tag. -/
def qscBad : QueueStepCreate :=
  { name := "odd", description := none, numRecords := 3,
    typeTag := "mystery", policyArgs := "" }

/-- The queue-1 state with no steps, before configuration. -/
def lqNoSteps : LabelQueue :=
  { id := 1, dataset := some ds1, users := [1], queuesteps := [], tasks := [] }

def stNoSteps : AppState := { labelqueues := [lqNoSteps], nextTaskId := 1 }

/-- The state after the consensus step is committed. -/
def stWithConsensus : AppState :=
  { labelqueues := [{ lqNoSteps with queuesteps := [consensusStep] }], nextTaskId := 1 }

/-- The queue row after the consensus step is committed. -/
def lqWithConsensus : LabelQueue := { lqNoSteps with queuesteps := [consensusStep] }

/-- C8 counterexample: the consensus tag — recognized by the enum but an
    unsupported, unimplemented policy — is accepted by create_queuestep at
    configuration time (no PolicyNotSupported failure), and dispatching on the
    configured step raises NotImplementedError, a policy-related error at
    dispatch time; both contradict the claim. -/
theorem C8_unsupported_policy_dispatch :
    createQueuestep stNoSteps 1 qscConsensus 7 = .ok (stWithConsensus, consensusStep) ∧
    consensusStep.getNextTask lqWithConsensus 1 (fun _ => 0) =
      .error (.notImplementedError "_get_next_task_consensus has not been implemented") :=
  ⟨rfl, rfl⟩

/-- C8 (amended): a policy tag outside the closed enum is rejected by the
    pydantic validation of the request body at configuration time — so an
    unrecognized tag never reaches dispatch — but the recognized tags consensus
    and priority are accepted at configuration time and every dispatch on a
    step carrying them raises NotImplementedError. -/
theorem C8_policy_validation (st : AppState) (i newId : Nat) (qsc : QueueStepCreate)
    (hbad : parseQueueType qsc.typeTag = none) :
    createQueuestep st i qsc newId =
      .error (.validationError "type: value is not a valid enumeration member") ∧
    (∀ (qs : QueueStep) (lq : LabelQueue) (u : Nat) (pick : List Nat → Nat),
      qs.type = QueueType.consensus →
      qs.getNextTask lq u pick =
        .error (.notImplementedError "_get_next_task_consensus has not been implemented")) ∧
    (∀ (qs : QueueStep) (lq : LabelQueue) (u : Nat) (pick : List Nat → Nat),
      qs.type = QueueType.priority →
      qs.getNextTask lq u pick =
        .error (.notImplementedError "_get_next_task_priority has not been implemented")) := by
  refine ⟨?_, ?_, ?_⟩
  · simp only [createQueuestep, hbad]
  · intro qs lq u pick hty
    simp only [QueueStep.getNextTask, hty]
  · intro qs lq u pick hty
    simp only [QueueStep.getNextTask, hty]

/-- Witness for C8 with the unrecognized tag mystery and a concrete consensus
    step. -/
theorem C8_policy_validation_witness :
    createQueuestep stNoSteps 1 qscBad 7 =
      .error (.validationError "type: value is not a valid enumeration member") ∧
    consensusStep.getNextTask lqWithConsensus 1 (fun _ => 0) =
      .error (.notImplementedError "_get_next_task_consensus has not been implemented") := by
  obtain ⟨h1, h2, h3⟩ := C8_policy_validation stNoSteps 1 7 qscBad rfl
  exact ⟨h1, h2 consensusStep lqWithConsensus 1 (fun _ => 0) rfl⟩

/-- On the found task the completion update writes the flag and the payload. -/
theorem updTask_of_found (tid : Nat) (p : String) (t : Task)
    (hid : (t.id == tid) = true) :
    updTask tid p t = { t with completed := true, completedData := p } := by
  simp [updTask, hid]

/-- C9: complete(task_id, payload) fails TaskNotFound when no task carries the
    id; on an incomplete task it succeeds, the stored task now carries
    completed = true and the payload, every other task is untouched, and a
    second call on the same id fails AlreadyCompleted (the error carries no new
    state, so nothing changes); a call on an already-completed task likewise
    fails AlreadyCompleted. -/
theorem C9_complete_idempotence (st : AppState) (tid : Nat) (p p2 : String) :
    ((allTasks st).find? (fun t => t.id == tid) = none →
      completeTask st tid p = .error .taskNotFound) ∧
    (∀ t, (allTasks st).find? (fun u => u.id == tid) = some t → t.completed = true →
      completeTask st tid p = .error .alreadyCompleted) ∧
    (∀ t, (allTasks st).find? (fun u => u.id == tid) = some t → t.completed = false →
      ∃ st', completeTask st tid p = .ok st' ∧
        (allTasks st').find? (fun u => u.id == tid) =
          some { t with completed := true, completedData := p } ∧
        completeTask st' tid p2 = .error .alreadyCompleted ∧
        ∀ u ∈ allTasks st, u.id ≠ tid → u ∈ allTasks st') := by
  refine ⟨?_, ?_, ?_⟩
  · intro h
    simp only [completeTask, h]
  · intro t hfind htc
    simp only [completeTask, hfind, htc]
    rfl
  · intro t hfind htc
    have hid0 := List.find?_some hfind
    have hid : (t.id == tid) = true := hid0
    have hupd : (allTasks { st with labelqueues := st.labelqueues.map (fun l =>
          { l with tasks := l.tasks.map (updTask tid p) }) }).find? (fun u => u.id == tid)
        = some { t with completed := true, completedData := p } := by
      rw [allTasks_update, find?_map_update, hfind]
      show some (updTask tid p t) = some { t with completed := true, completedData := p }
      rw [updTask_of_found tid p t hid]
    refine ⟨_, ?_, hupd, ?_, ?_⟩
    · simp only [completeTask, hfind, htc]
      rfl
    · simp only [completeTask, hupd]
      rfl
    · intro u hu hne
      have hfalse : (u.id == tid) = false := by
        cases hb : (u.id == tid) with
        | true => exact absurd (beq_iff_eq.mp hb) hne
        | false => rfl
      have hfix : updTask tid p u = u := by
        simp [updTask, hfalse]
      rw [allTasks_update]
      have hmm := List.mem_map_of_mem (updTask tid p) hu
      rw [hfix] at hmm
      exact hmm

/-- The incomplete task 3 of queue 1, awaiting completion. -/
def taskC9 : Task :=
  { id := 3, recordId := 2, datasetId := 1, userId := 1, queuestepId := 1,
    labelqueueId := 1, completed := false, completedData := "" }

def lqC9 : LabelQueue :=
  { id := 1, dataset := some ds1, users := [1], queuesteps := [seqStep],
    tasks := [taskC9] }

def stC9 : AppState := { labelqueues := [lqC9], nextTaskId := 4 }

/-- The session state after task 3 is completed with the payload label-a. -/
def stC9done : AppState :=
  { labelqueues := [{ lqC9 with
      tasks := [{ taskC9 with completed := true, completedData := "label-a" }] }],
    nextTaskId := 4 }

/-- Witness for C9: completing task 3 succeeds and stores the payload; the
    second completion call fails AlreadyCompleted. -/
theorem C9_complete_idempotence_witness :
    completeTask stC9 3 "label-a" = .ok stC9done ∧
    (allTasks stC9done).find? (fun u => u.id == 3) =
      some { taskC9 with completed := true, completedData := "label-a" } ∧
    completeTask stC9done 3 "label-b" = .error .alreadyCompleted := by
  obtain ⟨st', h1, h2, h3, h4⟩ :=
    (C9_complete_idempotence stC9 3 "label-a" "label-b").2.2 taskC9 rfl rfl
  have hcalc : completeTask stC9 3 "label-a" = .ok stC9done := by rfl
  have hok := h1.symm.trans hcalc
  injection hok with hst
  subst hst
  exact ⟨h1, h2, h3⟩

/-- Queue 1 with nothing configured, for the C10 state. -/
def lqA : LabelQueue :=
  { id := 1, dataset := none, users := [], queuesteps := [], tasks := [] }

/-- Queue 2 with nothing configured, for the C10 state. -/
def lqB : LabelQueue :=
  { id := 2, dataset := none, users := [], queuesteps := [], tasks := [] }

def stTwoQueues : AppState := { labelqueues := [lqA, lqB], nextTaskId := 1 }

/-- A sequential create_queuestep request body. -/
def qscSeq : QueueStepCreate :=
  { name := "s", description := none, numRecords := 3,
    typeTag := "sequential", policyArgs := "" }

/-- The first step of queue 1 as created: rank 1. -/
def stepA : QueueStep :=
  { id := 1, labelqueueId := 1, name := "s", numRecords := 3,
    type := .sequential, numRecordsCompleted := 0, rank := 1, completed := false }

/-- The first step of queue 2 as created: also rank 1. -/
def stepB : QueueStep :=
  { id := 2, labelqueueId := 2, name := "s", numRecords := 3,
    type := .sequential, numRecordsCompleted := 0, rank := 1, completed := false }

/-- The second step of queue 1 as created afterwards: rank 1 + 1 = 2. -/
def stepA2 : QueueStep :=
  { id := 3, labelqueueId := 1, name := "s", numRecords := 3,
    type := .sequential, numRecordsCompleted := 0, rank := 2, completed := false }

def stQueueAStep : AppState :=
  { labelqueues := [{ lqA with queuesteps := [stepA] }, lqB], nextTaskId := 1 }

def stBothQueuesStep : AppState :=
  { labelqueues := [{ lqA with queuesteps := [stepA] },
      { lqB with queuesteps := [stepB] }], nextTaskId := 1 }

def stThreeSteps : AppState :=
  { labelqueues := [{ lqA with queuesteps := [stepA, stepA2] },
      { lqB with queuesteps := [stepB] }], nextTaskId := 1 }

/-- C10: create_queuestep computes the rank from the target queue's own steps
    alone — the first step of queue 2 gets rank 1 although a step of queue 1
    already holds rank 1, so the queuestep-table-wide uniqueness the rank
    column declares is violated — while within one queue the rank really is
    1 plus the maximum existing rank (step 3 of queue 1 gets rank 2). -/
theorem C10_rank_collision :
    createQueuestep stTwoQueues 1 qscSeq 1 = .ok (stQueueAStep, stepA) ∧
    createQueuestep stQueueAStep 2 qscSeq 2 = .ok (stBothQueuesStep, stepB) ∧
    stepA.labelqueueId = 1 ∧ stepB.labelqueueId = 2 ∧
    stepA.rank = 1 ∧ stepB.rank = 1 ∧
    ranksPairwiseDistinct (allSteps stBothQueuesStep) = false ∧
    createQueuestep stBothQueuesStep 1 qscSeq 3 = .ok (stThreeSteps, stepA2) ∧
    stepA2.rank = 2 :=
  ⟨rfl, rfl, rfl, rfl, rfl, rfl, rfl, rfl, rfl⟩

end LabelTaskQueue
